import Mathlib

/-!
Verification of the flashr-tui core against its specification.

The Rust sources are shallowly embedded: pure functions become Lean
functions, the stateful TUI step handlers become explicit state-passing
functions on an `App` record, and the effectful write pipeline becomes a
function from an environment (classification verdict, privilege state,
child-process output) to a result together with the list of external
effects it performs, in order.
-/

namespace FlashrTui

/-- Embeds `IsoKind` from `src/iso.rs`: the three-valued classification of
an image header. -/
inductive IsoKind where
  | Unknown
  | Hybrid
  | NonHybrid
  deriving DecidableEq, Repr

/-- Embeds `has_mbr_signature` from `detect` in `src/iso.rs`: bytes 510
and 511 of the header buffer equal `0x55` and `0xAA`. The buffer is a
function from byte offset to byte value. -/
def has_mbr_signature (buf : Nat → Nat) : Bool :=
  buf 510 == 0x55 && buf 511 == 0xAA

/-- Embeds `has_partition_entry` from `detect` in `src/iso.rs`: one of the
four 16-byte partition entries starting at offset 446 holds a non-zero
byte. -/
def has_partition_entry (buf : Nat → Nat) : Bool :=
  (List.range 4).any fun i =>
    (List.range 16).any fun j => buf (446 + i * 16 + j) != 0

/-- The GPT magic bytes `"EFI PART"` used by `detect` in `src/iso.rs`. -/
def gptMagic : List Nat := [0x45, 0x46, 0x49, 0x20, 0x50, 0x41, 0x52, 0x54]

/-- Embeds `has_gpt` from `detect` in `src/iso.rs`: at least 520 bytes were
read and bytes 512..519 spell `"EFI PART"`. -/
def has_gpt (bytesRead : Nat) (buf : Nat → Nat) : Bool :=
  decide (520 ≤ bytesRead) &&
    (List.range 8).all fun k => buf (512 + k) == gptMagic.getD k 0

/-- Embeds `detect` from `src/iso.rs` (the classification of the bytes that
were read; the I/O that fills the buffer is outside the embedding).
`bytesRead` is how many bytes the single `read` call returned; offsets at
or beyond `bytesRead` are the zeroes of the zero-initialised buffer, which
the `buf` function is expected to reflect. -/
def detect (bytesRead : Nat) (buf : Nat → Nat) : IsoKind :=
  if bytesRead < 512 then IsoKind.Unknown
  else if has_mbr_signature buf && has_partition_entry buf || has_gpt bytesRead buf then
    IsoKind.Hybrid
  else IsoKind.NonHybrid

/-- Reference classifier written from the words of the specification (C2): fewer
than 512 bytes read gives Indeterminate; otherwise Safe iff (bytes 510-511
are `0x55 0xAA` and some byte in 446-509 is non-zero) or (at least 520
bytes were read and bytes 512-519 spell `"EFI PART"`); otherwise Unsafe. -/
def detectSpec (bytesRead : Nat) (buf : Nat → Nat) : IsoKind :=
  if bytesRead < 512 then IsoKind.Unknown
  else if (buf 510 == 0x55 && buf 511 == 0xAA
              && (List.range 64).any fun k => buf (446 + k) != 0)
          || (decide (520 ≤ bytesRead)
              && (List.range 8).all fun k => buf (512 + k) == gptMagic.getD k 0) then
    IsoKind.Hybrid
  else IsoKind.NonHybrid

lemma has_partition_entry_eq_range64 (buf : Nat → Nat) :
    has_partition_entry buf = (List.range 64).any fun k => buf (446 + k) != 0 := by
  have h : (has_partition_entry buf = true) ↔
      (((List.range 64).any fun k => buf (446 + k) != 0) = true) := by
    simp only [has_partition_entry, List.any_eq_true, List.mem_range, bne_iff_ne, ne_eq]
    constructor
    · rintro ⟨i, hi, j, hj, hb⟩
      refine ⟨i * 16 + j, by omega, ?_⟩
      have e : 446 + (i * 16 + j) = 446 + i * 16 + j := by omega
      rw [e]; exact hb
    · rintro ⟨k, hk, hb⟩
      refine ⟨k / 16, by omega, k % 16, by omega, ?_⟩
      have e : 446 + k / 16 * 16 + k % 16 = 446 + k := by omega
      rw [e]; exact hb
  cases hl : has_partition_entry buf <;>
    cases hr : (List.range 64).any fun k => buf (446 + k) != 0 <;> simp_all

/-- The digit-collecting loop of `parse_dd_bytes` in `src/flash.rs`: take
characters while they are ASCII digits, stop at the first non-digit. -/
def leadingDigits : List Char → List Char
  | [] => []
  | c :: cs => if c.isDigit then c :: leadingDigits cs else []

/-- Numeric value of a run of ASCII digit characters (the value
`str::parse::<u64>` computes before its overflow check). -/
def digitsVal (l : List Char) : Nat :=
  l.foldl (fun a c => a * 10 + (c.toNat - 48)) 0

/-- Embeds `parse_dd_bytes` from `src/flash.rs`: collect the leading run of
ASCII digits; an empty run yields `none`, and `digits.parse::<u64>().ok()`
yields the value when it fits in a `u64` and `none` on overflow. -/
def parse_dd_bytes (line : String) : Option Nat :=
  let digits := leadingDigits line.data
  if digits.isEmpty then none
  else
    let v := digitsVal digits
    if v < 18446744073709551616 then some v else none

/-- Embeds `is_ascii_whitespace` of Rust (`src/flash.rs` uses it in
`sanitize_label`): space, tab, line feed, form feed, carriage return. -/
def isAsciiWhitespace (c : Char) : Bool :=
  c == ' ' || c == '\t' || c == '\n' || c == '\x0C' || c == '\r'

/-- The character loop of `sanitize_label` in `src/flash.rs`: keep ASCII
alphanumerics, hyphen and underscore; map ASCII whitespace to underscore;
drop everything else. -/
def sanitizeChars : List Char → List Char
  | [] => []
  | c :: cs =>
    if c.isAlphanum || c == '-' || c == '_' then c :: sanitizeChars cs
    else if isAsciiWhitespace c then '_' :: sanitizeChars cs
    else sanitizeChars cs

/-- Embeds `sanitize_label` from `src/flash.rs`. -/
def sanitize_label (input : String) : String :=
  ⟨sanitizeChars input.data⟩

/-- Embeds `truncate_label` from `src/flash.rs`:
`input.chars().take(max_len).collect()`. -/
def truncate_label (input : String) (max_len : Nat) : String :=
  ⟨input.data.take max_len⟩

/-- Embeds `label_command` from `src/flash.rs`: label text, tool name and
the argument vector handed to the labeling tool for a filesystem type. -/
def label_command (partition fstype base : String) : String × String × List String :=
  match fstype with
  | "vfat" | "fat" | "fat16" | "fat32" =>
    let label := truncate_label base 11
    (label, "fatlabel", [partition, label])
  | "ntfs" =>
    let label := truncate_label base 32
    (label, "ntfslabel", [partition, label])
  | "ext2" | "ext3" | "ext4" =>
    let label := truncate_label base 16
    (label, "e2label", [partition, label])
  | _ => (base, "false", [])

/-- Embeds `is_supported_fstype` from `src/flash.rs`. -/
def is_supported_fstype (fstype : String) : Bool :=
  fstype == "vfat" || fstype == "fat" || fstype == "fat16" || fstype == "fat32"
    || fstype == "ntfs" || fstype == "ext2" || fstype == "ext3" || fstype == "ext4"

/-- Embeds `Disk` from `src/device.rs`. -/
structure Disk where
  name : String
  model : String
  size : String
  deriving DecidableEq, Repr

/-- Embeds `Disk::device_path` from `src/device.rs`: `/dev/<name>`. -/
def Disk.device_path (d : Disk) : String :=
  "/dev/" ++ d.name

/-- Embeds the fields of `LsblkDevice` from `src/device.rs` that `list`
reads (children and fstype are only used by the labeling query). -/
structure LsblkDevice where
  name : String
  model : Option String
  size : Option String
  rm : Option Bool
  type : String
  deriving DecidableEq, Repr

/-- Embeds the pure tail of `list` from `src/device.rs`: given the parsed
`lsblk` records, keep devices of type `"disk"`, keep all of them when
`show_all` and only those with `rm == Some true` otherwise
(`rm.unwrap_or(false)`), and build `Disk` values with empty-string
defaults for missing model and size. -/
def list (show_all : Bool) (blockdevices : List LsblkDevice) : List Disk :=
  ((blockdevices.filter fun dev => dev.type == "disk").filter
      fun dev => show_all || dev.rm.getD false).map
    fun dev => ⟨dev.name, dev.model.getD "", dev.size.getD ""⟩

/-- Embeds `Step` from `src/lib.rs`. -/
inductive Step where
  | Image
  | Device
  | Confirm
  | Flashing
  | Result
  | Error
  deriving DecidableEq, Repr

/-- Embeds `FlashResult` from `src/lib.rs`. -/
structure FlashResult where
  ok : Bool
  message : String
  deriving DecidableEq, Repr

/-- The trim of the Rust function `str::trim` as used by `App::image_path`, modelled
on characters: drop whitespace from both ends. -/
def strTrim (s : String) : String :=
  ⟨((s.data.dropWhile Char.isWhitespace).reverse.dropWhile Char.isWhitespace).reverse⟩

/-- Embeds `App` from `src/lib.rs`, restricted to the fields the confirm
handler, the flash starter and the poll loop touch. The two channel
receivers are modelled by their presence (`true` iff the `Option` in the
source is `Some`). -/
structure App where
  step : Step
  image_input : String
  iso_kind : IsoKind
  selected_device : Option Disk
  status : String
  execute : Bool
  flash_progress : String
  flash_result : Option FlashResult
  flash_total : Option Nat
  flash_done : Nat
  progress_rx : Bool
  result_rx : Bool
  deriving Repr

/-- Embeds `App::image_path` from `src/lib.rs`: trim the input; empty
gives `None`, otherwise the trimmed path. -/
def App.image_path (app : App) : Option String :=
  let trimmed := strTrim app.image_input
  if trimmed = "" then none else some trimmed

/-- Embeds the state mutation of `App::start_flash` from `src/lib.rs`:
reset progress text and byte counter, record the total from the file
metadata (`total`, an input of the embedding), install both channels and
move to `Flashing`. The spawned worker itself is outside the embedding;
callers of this function report that a worker was spawned. -/
def App.start_flash (app : App) (total : Option Nat) : App :=
  { app with
    flash_progress := "Starting..."
    flash_done := 0
    flash_total := total
    progress_rx := true
    result_rx := true
    step := Step.Flashing }

/-- The key codes `handle_confirm_step` in `src/ui.rs` distinguishes. -/
inductive Key where
  | charF
  | charB
  | other
  deriving DecidableEq, Repr

/-- Embeds `handle_confirm_step` from `src/ui.rs`. `total` is the file
size `start_flash` would read from the metadata of the image file. The returned
`Bool` records whether a background flash worker was spawned
(`start_flash` called). -/
def handle_confirm_step (app : App) (total : Option Nat) (key : Key) : App × Bool :=
  match key with
  | Key.charF =>
    if app.iso_kind = IsoKind.NonHybrid then
      ({ app with
          status := "ISO has no partition table; hybrid ISO required."
          step := Step.Error }, false)
    else
      match app.image_path, app.selected_device with
      | some image, some device =>
        if app.execute then
          (app.start_flash total, true)
        else
          ({ app with
              flash_result := some
                ⟨true, "Dry run: would flash " ++ image ++ " to " ++ device.device_path⟩
              step := Step.Result }, false)
      | _, _ => (app, false)
  | Key.charB => ({ app with step := Step.Device }, false)
  | Key.other => (app, false)

/-- One iteration of the progress-drain loop in `App::poll_flash`
(`src/lib.rs`): a line that parses updates `flash_done`, any line becomes
the latest `flash_progress`. -/
def pollStep (app : App) (line : String) : App :=
  let app' :=
    match parse_dd_bytes line with
    | some bytes => { app with flash_done := bytes }
    | none => app
  { app' with flash_progress := line }

/-- The whole progress-drain loop of `App::poll_flash`: fold `pollStep`
over the lines buffered in the progress channel, in order. -/
def drainProgress (app : App) (lines : List String) : App :=
  lines.foldl pollStep app

/-- The successive values of `flash_done` while `drainProgress` consumes
`lines`: initial value first, then the value after each line. -/
def doneTrace (app : App) : List String → List Nat
  | [] => [app.flash_done]
  | l :: ls => app.flash_done :: doneTrace (pollStep app l) ls

/-- The external effects `flash_image_with_progress` (`src/flash.rs`) can
perform, in program order: probing for an elevation tool, spawning the
`dd` write process, `sync`, `partprobe`, and the labeling sub-step
(its `lsblk` query plus label tool). -/
inductive FlashEffect where
  | probeElevator
  | spawnDd
  | syncDisk
  | partprobe
  | labelDevice
  deriving DecidableEq, Repr

/-- The environment `flash_image_with_progress` runs in: the verdict of the classifier on the image, whether the process is root, which elevation tool
`find_elevator` would find, the non-empty trimmed lines read from the stderr of `dd`, the exit status of `dd`, and the message the labeling sub-step would
produce (`None` when it returns `Ok(None)` or an `Err`). -/
structure FlashEnv where
  kind : IsoKind
  isRoot : Bool
  elevatorFound : Option String
  ddLines : List String
  ddExitSuccess : Bool
  labelMessage : Option String

/-- Embeds `flash_image_with_progress` from `src/flash.rs` as a function
from its environment to (result, effects performed in order, progress
messages sent). The function never touches the device catalog, which is
why no catalog state appears here: an empty effect list means nothing
external was run at all. -/
def flash_image_with_progress (env : FlashEnv) :
    Except String Unit × List FlashEffect × List String :=
  match env.kind with
  | IsoKind.NonHybrid =>
    (Except.error "ISO has no partition table; hybrid ISO required", [], [])
  | IsoKind.Unknown =>
    (Except.error "Unable to determine ISO type", [], [])
  | IsoKind.Hybrid =>
    let probe :
        Except String (Option String) × List FlashEffect × List String :=
      if env.isRoot then (Except.ok none, [], [])
      else
        match env.elevatorFound with
        | none =>
          (Except.error
              "Root privileges required for flashing. Install pkexec or sudo, or run with: sudo flashr-tui --execute",
            [FlashEffect.probeElevator], [])
        | some elev =>
          (Except.ok (some elev), [FlashEffect.probeElevator],
            ["Not running as root; using '" ++ elev ++ "' for privilege elevation"])
    match probe with
    | (Except.error e, effs, msgs) => (Except.error e, effs, msgs)
    | (Except.ok _, effs, msgs) =>
      let effs := effs ++ [FlashEffect.spawnDd]
      let msgs := msgs ++ env.ddLines
      if !env.ddExitSuccess then (Except.error "dd failed", effs, msgs)
      else
        (Except.ok (),
          effs ++ [FlashEffect.syncDisk, FlashEffect.partprobe, FlashEffect.labelDevice],
          msgs ++ env.labelMessage.toList)

end FlashrTui

open FlashrTui

namespace FlashrTui

lemma leadingDigits_eq_nil (l : List Char) (h : ∀ c ∈ l.head?, c.isDigit = false) :
    leadingDigits l = [] := by
  cases l with
  | nil => rfl
  | cons c cs =>
    have hc : c.isDigit = false := h c rfl
    simp [leadingDigits, hc]

lemma pollStep_flash_done_of_none (app : App) (line : String)
    (h : parse_dd_bytes line = none) :
    (pollStep app line).flash_done = app.flash_done := by
  simp [pollStep, h]

/-- A concrete application state used to instantiate the theorems: the
state right after entering the Confirm step with a Hybrid image and a
selected device, in dry-run mode. -/
def appBase : App :=
  { step := Step.Confirm
    image_input := "/tmp/image.iso"
    iso_kind := IsoKind.Hybrid
    selected_device := some ⟨"sdb", "Cruzer", "8G"⟩
    status := ""
    execute := false
    flash_progress := ""
    flash_result := none
    flash_total := none
    flash_done := 0
    progress_rx := false
    result_rx := false }

end FlashrTui

/-- C2: the image classifier `detect` agrees with the reference definition
taken verbatim from the specification: fewer than 512 bytes read gives
`Unknown`; otherwise `Hybrid` iff (bytes 510-511 equal `0x55 0xAA` and at
least one byte in 446-509 is non-zero) or (at least 520 bytes were read and
bytes 512-519 equal `"EFI PART"`); otherwise `NonHybrid`. -/
theorem detect_eq_detectSpec (bytesRead : Nat) (buf : Nat → Nat) :
    detect bytesRead buf = detectSpec bytesRead buf := by
  unfold detect detectSpec has_mbr_signature has_gpt
  rw [has_partition_entry_eq_range64, Bool.and_assoc]

/-- C7: `parse_dd_bytes` parses the maximal leading run of ASCII decimal
digits of a line as the cumulative byte count: the sample line
`"104857600 bytes (105 MB) copied"` yields `104857600`; every line that
does not start with an ASCII digit yields `none`; a `none` result leaves
the byte counter of the poll loop unchanged; and whenever a value is
produced it is exactly the value of the leading digit run. -/
theorem parse_dd_bytes_leading_digits :
    parse_dd_bytes "104857600 bytes (105 MB) copied" = some 104857600 ∧
    (∀ line : String, (∀ c ∈ line.data.head?, c.isDigit = false) →
      parse_dd_bytes line = none) ∧
    (∀ (app : App) (line : String), parse_dd_bytes line = none →
      (pollStep app line).flash_done = app.flash_done) ∧
    (∀ line : String, parse_dd_bytes line = none ∨
      parse_dd_bytes line = some (digitsVal (leadingDigits line.data))) := by
  refine ⟨by decide, ?_, ?_, ?_⟩
  · intro line h
    simp [parse_dd_bytes, leadingDigits_eq_nil line.data h]
  · intro app line h
    exact pollStep_flash_done_of_none app line h
  · intro line
    by_cases h1 : (leadingDigits line.data).isEmpty
    · left; simp [parse_dd_bytes, h1]
    · by_cases h2 : digitsVal (leadingDigits line.data) < 18446744073709551616
      · right; simp [parse_dd_bytes, h1, h2]
      · left; simp [parse_dd_bytes, h1, h2]

/-- Witness for C7: the theorem applied at the concrete line `"dd: error"`,
which does not start with a digit, and at `appBase`. -/
theorem parse_dd_bytes_leading_digits_witness :
    parse_dd_bytes "dd: error" = none ∧
    (pollStep appBase "dd: error").flash_done = appBase.flash_done := by
  refine ⟨parse_dd_bytes_leading_digits.2.1 "dd: error" (by decide),
    parse_dd_bytes_leading_digits.2.2.1 appBase "dd: error"
      (parse_dd_bytes_leading_digits.2.1 "dd: error" (by decide))⟩

/-- C10: `parse_dd_bytes` is a total function of the line (it is defined by
structural recursion and arithmetic, with no partial operation), and when
the leading digit run denotes a value that does not fit in a `u64`
(at least `18446744073709551616 = 2 ^ 64`), the `u64` parse fails and the function returns `none`,
so the poll loop keeps the previous byte counter. -/
theorem parse_dd_bytes_overflow (line : String)
    (h : 18446744073709551616 ≤ digitsVal (leadingDigits line.data)) :
    parse_dd_bytes line = none ∧
    ∀ app : App, (pollStep app line).flash_done = app.flash_done := by
  have hp : parse_dd_bytes line = none := by
    unfold parse_dd_bytes
    by_cases h1 : (leadingDigits line.data).isEmpty
    · simp [h1]
    · simp [h1, Nat.not_lt.mpr h]
  exact ⟨hp, fun app => pollStep_flash_done_of_none app line hp⟩

/-- Witness for C10: a 20-digit progress line whose value exceeds the
`u64` maximum yields `none` and leaves the counter of `appBase` at 0. -/
theorem parse_dd_bytes_overflow_witness :
    parse_dd_bytes "99999999999999999999 bytes copied" = none ∧
    (pollStep appBase "99999999999999999999 bytes copied").flash_done = appBase.flash_done := by
  have h := parse_dd_bytes_overflow "99999999999999999999 bytes copied" (by decide)
  exact ⟨h.1, h.2 appBase⟩

namespace FlashrTui

lemma sanitizeChars_idem (l : List Char) :
    sanitizeChars (sanitizeChars l) = sanitizeChars l := by
  induction l with
  | nil => rfl
  | cons c cs ih =>
    by_cases h1 : (c.isAlphanum || c == '-' || c == '_') = true
    · simp only [sanitizeChars, h1, if_pos, ih]
    · by_cases h2 : isAsciiWhitespace c = true
      · simp only [sanitizeChars, h1, h2, if_neg, if_pos, Bool.false_eq_true,
          not_false_eq_true]
        rw [if_pos (by decide : ('_'.isAlphanum || '_' == '-' || '_' == '_') = true), ih]
      · simp only [sanitizeChars, h1, h2, Bool.false_eq_true, not_false_eq_true,
          if_neg]
        exact ih

end FlashrTui

/-- C8: label sanitization is idempotent — sanitizing an already-sanitized
string returns it unchanged — and sanitizing the sample `"My ISO v1!"`
yields `"My_ISO_v1"` (whitespace mapped to underscore, `!` dropped). -/
theorem sanitize_label_idempotent :
    (∀ s : String, sanitize_label (sanitize_label s) = sanitize_label s) ∧
    sanitize_label "My ISO v1!" = "My_ISO_v1" := by
  refine ⟨fun s => ?_, by decide⟩
  show (⟨sanitizeChars (sanitize_label s).data⟩ : String) = ⟨sanitizeChars s.data⟩
  rw [show (sanitize_label s).data = sanitizeChars s.data from rfl,
    sanitizeChars_idem]

/-- C9: the label handed to each labeling tool never exceeds the maximum
character count of the filesystem (FAT variants 11, NTFS 32, EXT2/3/4 16);
truncation works on characters, so the truncated label is a
whole-character prefix of the original (no multi-byte character can be
split); and a label already at or under the limit is returned unchanged. -/
theorem label_command_truncation (partition fstype base : String) :
    ((fstype = "vfat" ∨ fstype = "fat" ∨ fstype = "fat16" ∨ fstype = "fat32") →
      (label_command partition fstype base).1.length ≤ 11 ∧
      (label_command partition fstype base).2.2
        = [partition, (label_command partition fstype base).1]) ∧
    (fstype = "ntfs" →
      (label_command partition fstype base).1.length ≤ 32 ∧
      (label_command partition fstype base).2.2
        = [partition, (label_command partition fstype base).1]) ∧
    ((fstype = "ext2" ∨ fstype = "ext3" ∨ fstype = "ext4") →
      (label_command partition fstype base).1.length ≤ 16 ∧
      (label_command partition fstype base).2.2
        = [partition, (label_command partition fstype base).1]) ∧
    (∀ max_len : Nat,
      ∃ rest : List Char,
        base.data = (truncate_label base max_len).data ++ rest) ∧
    (∀ max_len : Nat, base.length ≤ max_len → truncate_label base max_len = base) := by
  have hlen : ∀ n : Nat, (truncate_label base n).length ≤ n := by
    intro n
    show (base.data.take n).length ≤ n
    rw [List.length_take]
    exact min_le_left _ _
  refine ⟨?_, ?_, ?_, ?_, ?_⟩
  · rintro (rfl | rfl | rfl | rfl) <;> exact ⟨hlen 11, rfl⟩
  · rintro rfl; exact ⟨hlen 32, rfl⟩
  · rintro (rfl | rfl | rfl) <;> exact ⟨hlen 16, rfl⟩
  · intro n
    exact ⟨base.data.drop n, (List.take_append_drop n base.data).symm⟩
  · intro n hn
    show (⟨base.data.take n⟩ : String) = base
    rw [List.take_of_length_le hn]

/-- Witness for C9: applied to a FAT partition with a 20-character base
label, the label is cut to 11 characters; and a 5-character label is kept
whole under the limit 11. -/
theorem label_command_truncation_witness :
    (label_command "/dev/sdb1" "vfat" "MyVeryLongIsoName123").1.length ≤ 11 ∧
    truncate_label "hello" 11 = "hello" := by
  refine ⟨(label_command_truncation "/dev/sdb1" "vfat" "MyVeryLongIsoName123").1
      (Or.inl rfl) |>.1,
    (label_command_truncation "/dev/sdb1" "vfat" "hello").2.2.2.2 11 (by decide)⟩

namespace FlashrTui

lemma list_true_eq (bd : List LsblkDevice) :
    list true bd = (bd.filter fun dev => dev.type == "disk").map
      fun dev => ⟨dev.name, dev.model.getD "", dev.size.getD ""⟩ := by
  unfold list
  simp

lemma list_false_sublist (bd : List LsblkDevice) :
    (list false bd).Sublist (list true bd) := by
  rw [list_true_eq]
  exact (List.filter_sublist _).map _

end FlashrTui

/-- C6 as amended: for the same parsed `lsblk` records, the device paths
listed with `show_all = false` are a subset of those listed with
`show_all = true`; every removable disk-type device appears in both lists;
and the `show_all = true` list contains every disk-type device, removable
or not. (The containment is not strict in general — see the
counterexample.) -/
theorem list_show_all_superset (bd : List LsblkDevice) :
    (((list false bd).map Disk.device_path).toFinset
        ⊆ ((list true bd).map Disk.device_path).toFinset) ∧
    (∀ dev ∈ bd, dev.type = "disk" → dev.rm = some true →
      (⟨dev.name, dev.model.getD "", dev.size.getD ""⟩ : Disk) ∈ list false bd ∧
      (⟨dev.name, dev.model.getD "", dev.size.getD ""⟩ : Disk) ∈ list true bd) ∧
    (∀ dev ∈ bd, dev.type = "disk" →
      (⟨dev.name, dev.model.getD "", dev.size.getD ""⟩ : Disk) ∈ list true bd) := by
  have hmemT : ∀ dev ∈ bd, dev.type = "disk" →
      (⟨dev.name, dev.model.getD "", dev.size.getD ""⟩ : Disk) ∈ list true bd := by
    intro dev hmem htype
    rw [list_true_eq]
    exact List.mem_map_of_mem _ (List.mem_filter.mpr ⟨hmem, by simp [htype]⟩)
  refine ⟨?_, ?_, hmemT⟩
  · intro p hp
    rw [List.mem_toFinset] at hp ⊢
    exact List.map_subset Disk.device_path (list_false_sublist bd).subset hp
  · intro dev hmem htype hrm
    refine ⟨?_, hmemT dev hmem htype⟩
    unfold list
    exact List.mem_map_of_mem _
      (List.mem_filter.mpr
        ⟨List.mem_filter.mpr ⟨hmem, by simp [htype]⟩, by simp [hrm]⟩)

/-- Witness for C6: with one removable and one fixed disk, the removable
disk `/dev/sdb` is listed in both modes and the fixed disk `/dev/sda` is
listed in the show-all mode. -/
theorem list_show_all_superset_witness :
    (⟨"sdb", "Cruzer", "8G"⟩ : Disk)
        ∈ list false [⟨"sda", some "SSD", some "1T", some false, "disk"⟩,
            ⟨"sdb", some "Cruzer", some "8G", some true, "disk"⟩] ∧
    (⟨"sda", "SSD", "1T"⟩ : Disk)
        ∈ list true [⟨"sda", some "SSD", some "1T", some false, "disk"⟩,
            ⟨"sdb", some "Cruzer", some "8G", some true, "disk"⟩] := by
  refine ⟨((list_show_all_superset
      [⟨"sda", some "SSD", some "1T", some false, "disk"⟩,
        ⟨"sdb", some "Cruzer", some "8G", some true, "disk"⟩]).2.1
      ⟨"sdb", some "Cruzer", some "8G", some true, "disk"⟩
      (by decide) rfl rfl).1,
    (list_show_all_superset
      [⟨"sda", some "SSD", some "1T", some false, "disk"⟩,
        ⟨"sdb", some "Cruzer", some "8G", some true, "disk"⟩]).2.2
      ⟨"sda", some "SSD", some "1T", some false, "disk"⟩
      (by decide) rfl⟩

/-- Counterexample for C6 as stated: with a single removable disk the two
listings are identical, so the `show_all = false` path set is not a
strict subset of the `show_all = true` path set. -/
theorem list_strict_subset_cex :
    (list false [⟨"sdb", none, none, some true, "disk"⟩]).map Disk.device_path
      = (list true [⟨"sdb", none, none, some true, "disk"⟩]).map Disk.device_path ∧
    ¬ (((list false [⟨"sdb", none, none, some true, "disk"⟩]).map
          Disk.device_path).toFinset
        ⊂ ((list true [⟨"sdb", none, none, some true, "disk"⟩]).map
          Disk.device_path).toFinset) := by
  constructor <;> decide

/-- C4: in the Confirm step with a `Hybrid` (Safe) classification, a
non-empty image input and a selected device, pressing the flash key in
dry-run mode (`execute = false`) transitions immediately to the `Result`
step with a successful outcome whose message contains both the image path
and the device path, spawns no flash worker (hence no external write
command), and creates no progress or result channel. -/
theorem confirm_dry_run (app : App) (total : Option Nat) (d : Disk)
    (_hstep : app.step = Step.Confirm)
    (hkind : app.iso_kind = IsoKind.Hybrid)
    (himg : strTrim app.image_input ≠ "")
    (hdev : app.selected_device = some d)
    (hexec : app.execute = false) :
    (handle_confirm_step app total Key.charF).2 = false ∧
    (handle_confirm_step app total Key.charF).1.step = Step.Result ∧
    (handle_confirm_step app total Key.charF).1.progress_rx = app.progress_rx ∧
    (handle_confirm_step app total Key.charF).1.result_rx = app.result_rx ∧
    ∃ msg : String,
      (handle_confirm_step app total Key.charF).1.flash_result = some ⟨true, msg⟩ ∧
      (∃ pre suf : List Char,
        msg.data = pre ++ (strTrim app.image_input).data ++ suf) ∧
      (∃ pre suf : List Char,
        msg.data = pre ++ (d.device_path).data ++ suf) := by
  have hne : app.iso_kind ≠ IsoKind.NonHybrid := by rw [hkind]; intro h; cases h
  have hpath : app.image_path = some (strTrim app.image_input) := by
    unfold App.image_path
    simp [himg]
  have hout : handle_confirm_step app total Key.charF
      = ({ app with
            flash_result := some ⟨true, "Dry run: would flash "
              ++ strTrim app.image_input ++ " to " ++ d.device_path⟩
            step := Step.Result }, false) := by
    unfold handle_confirm_step
    rw [if_neg hne, hpath, hdev, hexec]
    simp
  refine ⟨by rw [hout], by rw [hout], by rw [hout], by rw [hout],
    "Dry run: would flash " ++ strTrim app.image_input ++ " to " ++ d.device_path,
    by rw [hout], ?_, ?_⟩
  · refine ⟨("Dry run: would flash ").data, (" to " ++ d.device_path).data, ?_⟩
    simp [String.data_append, List.append_assoc]
  · refine ⟨("Dry run: would flash " ++ strTrim app.image_input ++ " to ").data,
      [], ?_⟩
    simp [String.data_append, List.append_assoc]

/-- Witness for C4: the theorem applied at `appBase` (Confirm step, Hybrid
image `/tmp/image.iso`, device `sdb`, dry-run mode): the handler reaches
`Result` without spawning a worker. -/
theorem confirm_dry_run_witness :
    (handle_confirm_step { appBase with iso_kind := IsoKind.Hybrid } none Key.charF).2
        = false ∧
    (handle_confirm_step { appBase with iso_kind := IsoKind.Hybrid } none
        Key.charF).1.step = Step.Result := by
  have h := confirm_dry_run { appBase with iso_kind := IsoKind.Hybrid } none
    ⟨"sdb", "Cruzer", "8G"⟩ rfl rfl (by decide) rfl rfl
  exact ⟨h.1, h.2.1⟩

namespace FlashrTui

lemma flash_guard (env : FlashEnv) (h : env.kind ≠ IsoKind.Hybrid) :
    (∃ msg, (flash_image_with_progress env).1 = Except.error msg) ∧
    (flash_image_with_progress env).2.1 = [] ∧
    (flash_image_with_progress env).2.2 = [] := by
  unfold flash_image_with_progress
  cases hk : env.kind with
  | Hybrid => exact absurd hk h
  | NonHybrid => exact ⟨⟨_, rfl⟩, rfl, rfl⟩
  | Unknown => exact ⟨⟨_, rfl⟩, rfl, rfl⟩

end FlashrTui

/-- C3: when the classification of the image is `NonHybrid` or `Unknown`,
`flash_image_with_progress` returns an error having performed no external
effect at all: no elevation-tool probe, no `dd` spawn, no touch of the
device, and (the function holds no device-catalog state) no device-catalog
mutation; it also sends no progress message. -/
theorem flash_rejects_unsafe_before_effects (env : FlashEnv)
    (h : env.kind = IsoKind.NonHybrid ∨ env.kind = IsoKind.Unknown) :
    (∃ msg, (flash_image_with_progress env).1 = Except.error msg) ∧
    (flash_image_with_progress env).2.1 = [] ∧
    (flash_image_with_progress env).2.2 = [] := by
  refine flash_guard env ?_
  rcases h with h | h <;> rw [h] <;> intro hc <;> cases hc

/-- Witness for C3: a concrete environment with a `NonHybrid` image (not
root, `sudo` available, a `dd` that would succeed): the pipeline errors
with an empty effect list and no progress messages. -/
theorem flash_rejects_unsafe_before_effects_witness :
    (∃ msg, (flash_image_with_progress
        ⟨IsoKind.NonHybrid, false, some "sudo", ["100 bytes copied"], true,
          none⟩).1 = Except.error msg) ∧
    (flash_image_with_progress
        ⟨IsoKind.NonHybrid, false, some "sudo", ["100 bytes copied"], true,
          none⟩).2.1 = [] ∧
    (flash_image_with_progress
        ⟨IsoKind.NonHybrid, false, some "sudo", ["100 bytes copied"], true,
          none⟩).2.2 = [] :=
  flash_rejects_unsafe_before_effects
    ⟨IsoKind.NonHybrid, false, some "sudo", ["100 bytes copied"], true, none⟩
    (Or.inl rfl)

/-- Counterexample for C1 as stated: in the Confirm step with the
classification `Unknown` (Indeterminate), execute mode on, a non-empty
image path and a selected device, the flash key does spawn the flash
worker — `Unknown` is not blocked by `handle_confirm_step`, only
`NonHybrid` is. -/
theorem confirm_unknown_spawns_cex :
    ({ appBase with iso_kind := IsoKind.Unknown, execute := true } :
        App).iso_kind = IsoKind.Unknown ∧
    ({ appBase with iso_kind := IsoKind.Unknown, execute := true } :
        App).step = Step.Confirm ∧
    (handle_confirm_step
        { appBase with iso_kind := IsoKind.Unknown, execute := true }
        none Key.charF).2 = true ∧
    (handle_confirm_step
        { appBase with iso_kind := IsoKind.Unknown, execute := true }
        none Key.charF).1.step = Step.Flashing := by
  refine ⟨rfl, rfl, by decide, by decide⟩

/-- C1 as amended: `handle_confirm_step` blocks only the `NonHybrid`
(Unsafe) classification — the flash key then transitions to `Error` and
spawns nothing — and a flash worker is spawned only when the
classification is not `NonHybrid`, execute mode is on and the flash key
was pressed; `Unknown` (Indeterminate) does not prevent the worker at the
confirm step. The destructive `dd` write itself is still initiated only
for a `Hybrid` image, because `flash_image_with_progress` re-classifies
the image and errors out, with no external effect, whenever the verdict
is not `Hybrid`. -/
theorem confirm_blocks_only_nonhybrid (app : App) (total : Option Nat) (key : Key) :
    (app.iso_kind = IsoKind.NonHybrid →
      (handle_confirm_step app total Key.charF).2 = false ∧
      (handle_confirm_step app total Key.charF).1.step = Step.Error) ∧
    ((handle_confirm_step app total key).2 = true →
      app.iso_kind ≠ IsoKind.NonHybrid ∧ app.execute = true ∧ key = Key.charF) ∧
    (∀ env : FlashEnv, env.kind ≠ IsoKind.Hybrid →
      (∃ msg, (flash_image_with_progress env).1 = Except.error msg) ∧
      (flash_image_with_progress env).2.1 = []) := by
  refine ⟨?_, ?_, fun env h => ⟨(flash_guard env h).1, (flash_guard env h).2.1⟩⟩
  · intro h
    unfold handle_confirm_step
    rw [if_pos h]
    exact ⟨rfl, rfl⟩
  · intro hspawn
    cases key with
    | charB => exact absurd hspawn (by simp [handle_confirm_step])
    | other => exact absurd hspawn (by simp [handle_confirm_step])
    | charF =>
      by_cases hk : app.iso_kind = IsoKind.NonHybrid
      · rw [show handle_confirm_step app total Key.charF
            = ({ app with
                  status := "ISO has no partition table; hybrid ISO required."
                  step := Step.Error }, false) by
              unfold handle_confirm_step; rw [if_pos hk]] at hspawn
        cases hspawn
      · refine ⟨hk, ?_, rfl⟩
        by_cases hex : app.execute
        · exact hex
        · exfalso
          cases hpath : app.image_path with
          | none => simp [handle_confirm_step, hk, hpath] at hspawn
          | some image =>
            cases hdev : app.selected_device with
            | none => simp [handle_confirm_step, hk, hpath, hdev] at hspawn
            | some d => simp [handle_confirm_step, hk, hpath, hdev, hex] at hspawn

/-- Witness for C1 (amended): applied at a `NonHybrid` state the flash key
reaches `Error` without spawning, and applied to a `NonHybrid` pipeline
environment the write errors with no effects. -/
theorem confirm_blocks_only_nonhybrid_witness :
    ((handle_confirm_step { appBase with iso_kind := IsoKind.NonHybrid }
        none Key.charF).2 = false ∧
      (handle_confirm_step { appBase with iso_kind := IsoKind.NonHybrid }
        none Key.charF).1.step = Step.Error) ∧
    (∃ msg, (flash_image_with_progress
        ⟨IsoKind.Unknown, true, none, [], true, none⟩).1 = Except.error msg) := by
  refine ⟨(confirm_blocks_only_nonhybrid
      { appBase with iso_kind := IsoKind.NonHybrid } none Key.charF).1 rfl,
    ((confirm_blocks_only_nonhybrid appBase none Key.charF).2.2
      ⟨IsoKind.Unknown, true, none, [], true, none⟩ (by intro h; cases h)).1⟩

namespace FlashrTui

lemma pollStep_flash_done_of_some (app : App) (line : String) (v : Nat)
    (h : parse_dd_bytes line = some v) :
    (pollStep app line).flash_done = v := by
  simp [pollStep, h]

lemma doneTrace_head (app : App) (lines : List String) :
    (doneTrace app lines).head? = some app.flash_done := by
  cases lines <;> rfl

lemma getLast?_getD_cons (v d : Nat) (t : List Nat) :
    ((v :: t).getLast?).getD d = (t.getLast?).getD v := by
  cases t with
  | nil => rfl
  | cons b l =>
    rw [List.getLast?_cons_cons]
    obtain ⟨x, hx⟩ := Option.isSome_iff_exists.mp
      (List.getLast?_isSome.mpr (List.cons_ne_nil b l))
    rw [hx]
    rfl

lemma drain_last_parsed (lines : List String) :
    ∀ app : App, (drainProgress app lines).flash_done
      = ((lines.filterMap parse_dd_bytes).getLast?).getD app.flash_done := by
  induction lines with
  | nil => intro app; rfl
  | cons l ls ih =>
    intro app
    show (drainProgress (pollStep app l) ls).flash_done = _
    rw [ih (pollStep app l)]
    cases hp : parse_dd_bytes l with
    | none =>
      rw [List.filterMap_cons_none hp, pollStep_flash_done_of_none app l hp]
    | some v =>
      rw [List.filterMap_cons_some hp, getLast?_getD_cons,
        pollStep_flash_done_of_some app l v hp]

lemma doneTrace_chain_of_parsed_chain (lines : List String) :
    ∀ app : App,
      List.Chain' (· ≤ ·) (app.flash_done :: lines.filterMap parse_dd_bytes) →
      List.Chain' (· ≤ ·) (doneTrace app lines) := by
  induction lines with
  | nil =>
    intro app _
    exact List.chain'_singleton app.flash_done
  | cons l ls ih =>
    intro app h
    show List.Chain' (· ≤ ·) (app.flash_done :: doneTrace (pollStep app l) ls)
    rw [List.chain'_cons']
    cases hp : parse_dd_bytes l with
    | none =>
      rw [List.filterMap_cons_none hp] at h
      have hdone := pollStep_flash_done_of_none app l hp
      constructor
      · intro b hb
        rw [doneTrace_head, Option.mem_def, Option.some_inj] at hb
        rw [← hb, hdone]
      · exact ih (pollStep app l) (by rw [hdone]; exact h)
    | some v =>
      rw [List.filterMap_cons_some hp] at h
      obtain ⟨hle, htail⟩ := List.chain'_cons.mp h
      have hdone := pollStep_flash_done_of_some app l v hp
      constructor
      · intro b hb
        rw [doneTrace_head, Option.mem_def, Option.some_inj] at hb
        rw [← hb, hdone]
        exact hle
      · exact ih (pollStep app l) (by rw [hdone]; exact htail)

end FlashrTui

/-- Counterexample for C5 as stated: after `start_flash` resets the
counter to 0, draining the two progress lines
`"104857600 bytes (105 MB) copied"` and `"25+0 records in"` (the dd final
record line also starts with digits) makes the counter trace `[0,
104857600, 25]`, which is not monotonically non-decreasing — the counter
drops on the second line. -/
theorem poll_counter_monotone_cex :
    (appBase.start_flash none).flash_done = 0 ∧
    doneTrace (appBase.start_flash none)
      ["104857600 bytes (105 MB) copied", "25+0 records in"]
      = [0, 104857600, 25] ∧
    ¬ List.Chain' (· ≤ ·)
      (doneTrace (appBase.start_flash none)
        ["104857600 bytes (105 MB) copied", "25+0 records in"]) := by
  refine ⟨rfl, by decide, ?_⟩
  rw [show doneTrace (appBase.start_flash none)
      ["104857600 bytes (105 MB) copied", "25+0 records in"]
      = [0, 104857600, 25] from by decide]
  norm_num [List.chain'_cons]

/-- C5 as amended: within one write session the counter reflects exactly
the most recent successfully parsed progress line — an unparsable line
leaves it unchanged, and after draining any line sequence the counter is
the last parsed value (or the initial value when nothing parsed); the
counter trace is monotonically non-decreasing whenever the parsed values
of the drained lines form a non-decreasing sequence starting at or above
the initial counter (as the cumulative counts of a real `dd` run do after
`start_flash` resets the counter to 0), but the code does not itself
enforce monotonicity for arbitrary lines. -/
theorem poll_counter_last_parsed (app : App) (lines : List String) :
    (∀ line : String, parse_dd_bytes line = none →
      (pollStep app line).flash_done = app.flash_done) ∧
    (drainProgress app lines).flash_done
      = ((lines.filterMap parse_dd_bytes).getLast?).getD app.flash_done ∧
    (List.Chain' (· ≤ ·) (app.flash_done :: lines.filterMap parse_dd_bytes) →
      List.Chain' (· ≤ ·) (doneTrace app lines)) := by
  exact ⟨fun line h => pollStep_flash_done_of_none app line h,
    drain_last_parsed lines app,
    doneTrace_chain_of_parsed_chain lines app⟩

/-- Witness for C5 (amended): draining an unparsable banner line followed
by two increasing dd progress lines leaves the counter at the last parsed
value 1024, and the counter trace is monotone. -/
theorem poll_counter_last_parsed_witness :
    (drainProgress appBase
        ["Flashing image", "512 bytes copied", "1024 bytes copied"]).flash_done
      = 1024 ∧
    List.Chain' (· ≤ ·)
      (doneTrace appBase
        ["Flashing image", "512 bytes copied", "1024 bytes copied"]) := by
  have h := poll_counter_last_parsed appBase
    ["Flashing image", "512 bytes copied", "1024 bytes copied"]
  refine ⟨?_, ?_⟩
  · rw [h.2.1]; decide
  · apply h.2.2
    rw [show appBase.flash_done
        :: (["Flashing image", "512 bytes copied",
              "1024 bytes copied"].filterMap parse_dd_bytes)
        = [0, 512, 1024] from by decide]
    norm_num [List.chain'_cons, List.chain'_singleton]
